import Mathlib

/-
Verification of the Record Synchronization Layer of the healthify patient
portal (src/lib/hooks/useHealthRecord.ts).

The embedding models each hook's write operation as a pure function from
  (active user identity, remote-store outcomes, current cache, arguments)
to an `OpOut` record containing the returned value, the cache visible to
readers after the call, the notifications sent to the toast sink, and the
remote calls performed.  JS `undefined` returns are `Option.none`; JS object
aliasing in the metrics hook is modeled with an explicit heap of
`MetricData` objects.  `JSON.stringify`/`JSON.parse` are modeled by a
verified renderer/parser pair over a `Json` value type.
-/

namespace HealthSync

/-- A user identity string, as supplied by the auth provider. -/
abbrev UserId := String

/-- One notification handed to the toast sink: title, description, and
whether the destructive (failure) variant was used. -/
structure Toast where
  title : String
  description : String
  destructive : Bool
  deriving DecidableEq, Repr

/-- A remote-store round trip issued by an operation, used to count the
remote calls an operation performs. -/
inductive RemoteCall where
  | select
  | insert
  | update
  | delete
  deriving DecidableEq, Repr

/-- Outcome of the `.select('id').eq('user_id', ...).single()` existence
check: a row was found, no row exists (the PGRST116 "no rows" signal, which
the code treats as not-an-error), or a genuine remote error. -/
inductive CheckResult where
  | found (rowId : String)
  | noRow
  | err
  deriving DecidableEq, Repr

/-- Remote outcomes an upsert operation can encounter: the existence check
result and whether the subsequent insert/update succeeds. -/
structure UpsertEnv where
  check : CheckResult
  write : Bool
  deriving DecidableEq, Repr

/-- The observable result of one write operation: the value returned to the
caller (`none` models a JS `undefined` return), the cache content visible to
readers after the call, the toasts emitted, and the remote calls made. -/
structure OpOut (α : Type) where
  ret : Option Bool
  cache : α
  toasts : List Toast
  calls : List RemoteCall
  deriving DecidableEq, Repr

/-- A JSON value as produced by `JSON.parse` / consumed by `JSON.stringify`.
Numbers are decimal literals (sign, integer part, fraction digits); strings
and object keys are kept as character lists.  Object fields are ordered, as
JS object properties are. -/
inductive Json where
  | null
  | bool (b : Bool)
  | num (neg : Bool) (ip : Nat) (frac : List (Fin 10))
  | str (s : List Char)
  | arr (xs : List Json)
  | obj (fields : List (List Char × Json))

/-- A value bound for a semi-structured column on the wire: either text or a
native structured value.  The upsert path always sends text
(`JSON.stringify`), the loader must accept both. -/
inductive StoredPayload where
  | text (s : String)
  | native (j : Json)

/- ---------------------------------------------------------------------- -/
/- Derived Field Engine (Vitals): calculateBMI, lines 236-239.             -/
/- ---------------------------------------------------------------------- -/

/-- Rounding to one decimal place as performed by
`parseFloat(x.toFixed(1))`: round half away from zero at the first decimal
(ECMA `toFixed` takes the absolute value, rounds half up, and re-applies the
sign). -/
def round1 (q : ℚ) : ℚ :=
  if q < 0 then -(((Int.floor ((-q) * 10 + 1 / 2) : ℤ) : ℚ) / 10)
  else ((Int.floor (q * 10 + 1 / 2) : ℤ) : ℚ) / 10

/-- Model of `calculateBMI(height, weight)`: `heightInMeters = height/100`,
then `weight / (heightInMeters * heightInMeters)` formatted via
`.toFixed(1)` and re-parsed.  Rational division by zero is `0` in Lean where
JS would produce `Infinity`; the claims only use nonzero heights here. -/
def calculateBMI (height weight : ℚ) : ℚ :=
  round1 (weight / ((height / 100) * (height / 100)))

/-- JS `x || fallback` on an optional numeric field: an absent field and a
zero value are both falsy and fall through to the fallback. -/
def jsOr (x : Option ℚ) (fallback : ℚ) : ℚ :=
  match x with
  | none => fallback
  | some v => if v = 0 then fallback else v

/-- JS `x || null` / `x || undefined` on an optional string: the empty
string is falsy and collapses to none. -/
def jsTruthyStr (x : Option String) : Option String :=
  match x with
  | none => none
  | some s => if s = "" then none else some s

/- ---------------------------------------------------------------------- -/
/- Personal Info channel: updatePersonalInfo, lines 128-190.               -/
/- ---------------------------------------------------------------------- -/

/-- The personal-info record held in the Cache. -/
structure PersonalInfo where
  id : Option String
  user_id : Option String
  full_name : String
  age : Int
  gender : String
  address : String
  marital_status : String
  children : Int
  deriving DecidableEq, Repr

/-- A `Partial<PersonalInfo>` update: each field optionally supplied. -/
structure PersonalInfoPatch where
  id : Option String := none
  user_id : Option String := none
  full_name : Option String := none
  age : Option Int := none
  gender : Option String := none
  address : Option String := none
  marital_status : Option String := none
  children : Option Int := none
  deriving DecidableEq, Repr

/-- The spread merge `{ ...personalInfo, ...updatedInfo, user_id: user.id }`. -/
def mergePersonal (cache : PersonalInfo) (upd : PersonalInfoPatch) (uid : UserId) :
    PersonalInfo :=
  { id := (upd.id).orElse (fun _ => cache.id)
    user_id := some uid
    full_name := upd.full_name.getD cache.full_name
    age := upd.age.getD cache.age
    gender := upd.gender.getD cache.gender
    address := upd.address.getD cache.address
    marital_status := upd.marital_status.getD cache.marital_status
    children := upd.children.getD cache.children }

def authToastPersonal : Toast :=
  ⟨"Authentication required", "Please log in to save personal information", true⟩

def failToastPersonal : Toast :=
  ⟨"Update failed", "Could not save personal information", true⟩

def okToastPersonal : Toast :=
  ⟨"Personal information updated", "Your personal details have been saved", false⟩

/-- Model of `updatePersonalInfo` (lines 128-190).  With no user it toasts
and returns `undefined` (`none`) without any remote call.  Otherwise it runs
the existence check; a check error other than PGRST116 throws to the catch
block.  The merged record is stored into the cache only after the remote
write succeeds. -/
def updatePersonalInfo (user : Option UserId) (env : UpsertEnv)
    (cache : PersonalInfo) (upd : PersonalInfoPatch) : OpOut PersonalInfo :=
  match user with
  | none => ⟨none, cache, [authToastPersonal], []⟩
  | some uid =>
    let newInfo := mergePersonal cache upd uid
    match env.check with
    | .err => ⟨some false, cache, [failToastPersonal], [.select]⟩
    | .found _ =>
      if env.write then ⟨some true, newInfo, [okToastPersonal], [.select, .update]⟩
      else ⟨some false, cache, [failToastPersonal], [.select, .update]⟩
    | .noRow =>
      if env.write then ⟨some true, newInfo, [okToastPersonal], [.select, .insert]⟩
      else ⟨some false, cache, [failToastPersonal], [.select, .insert]⟩

/- ---------------------------------------------------------------------- -/
/- Vitals channel: updateVitalsInfo, lines 241-312.                        -/
/- ---------------------------------------------------------------------- -/

/-- The vitals record held in the Cache. -/
structure VitalsInfo where
  id : Option String
  user_id : Option String
  height : ℚ
  weight : ℚ
  bmi : ℚ
  blood_group : String
  deriving DecidableEq, Repr

/-- A `Partial<VitalsInfo>` update. -/
structure VitalsPatch where
  id : Option String := none
  user_id : Option String := none
  height : Option ℚ := none
  weight : Option ℚ := none
  bmi : Option ℚ := none
  blood_group : Option String := none
  deriving DecidableEq, Repr

/-- The spread merge `{ ...vitals, ...updatedInfo, bmi: newBMI, user_id }`:
caller-supplied fields override the cache, but `bmi` is then overridden by
the recomputed value and `user_id` by the active identity. -/
def mergeVitals (cache : VitalsInfo) (upd : VitalsPatch) (newBMI : ℚ)
    (uid : UserId) : VitalsInfo :=
  { id := (upd.id).orElse (fun _ => cache.id)
    user_id := some uid
    height := upd.height.getD cache.height
    weight := upd.weight.getD cache.weight
    bmi := newBMI
    blood_group := upd.blood_group.getD cache.blood_group }

def authToastVitals : Toast :=
  ⟨"Authentication required", "Please log in to save vitals information", true⟩

def failToastVitals : Toast :=
  ⟨"Update failed", "Could not save vitals information", true⟩

def okToastVitals : Toast :=
  ⟨"Vitals information updated", "Your vitals have been updated successfully", false⟩

/-- Model of `updateVitalsInfo` (lines 241-312).  `newHeight` and
`newWeight` use JS `||`, so a supplied value of 0 falls back to the cached
value for the BMI computation while the spread merge still stores the 0. -/
def updateVitalsInfo (user : Option UserId) (env : UpsertEnv)
    (cache : VitalsInfo) (upd : VitalsPatch) : OpOut VitalsInfo :=
  match user with
  | none => ⟨none, cache, [authToastVitals], []⟩
  | some uid =>
    let newHeight := jsOr upd.height cache.height
    let newWeight := jsOr upd.weight cache.weight
    let newBMI := calculateBMI newHeight newWeight
    let newVitals := mergeVitals cache upd newBMI uid
    match env.check with
    | .err => ⟨some false, cache, [failToastVitals], [.select]⟩
    | .found _ =>
      if env.write then ⟨some true, newVitals, [okToastVitals], [.select, .update]⟩
      else ⟨some false, cache, [failToastVitals], [.select, .update]⟩
    | .noRow =>
      if env.write then ⟨some true, newVitals, [okToastVitals], [.select, .insert]⟩
      else ⟨some false, cache, [failToastVitals], [.select, .insert]⟩

/- ---------------------------------------------------------------------- -/
/- Lifestyle channel: updateLifestyleInfo, lines 357-419.                  -/
/- ---------------------------------------------------------------------- -/

/-- The lifestyle record held in the Cache. -/
structure LifestyleInfo where
  id : Option String
  user_id : Option String
  activity_level : String
  smoking_status : String
  alcohol_consumption : String
  deriving DecidableEq, Repr

/-- A `Partial<LifestyleInfo>` update. -/
structure LifestylePatch where
  id : Option String := none
  user_id : Option String := none
  activity_level : Option String := none
  smoking_status : Option String := none
  alcohol_consumption : Option String := none
  deriving DecidableEq, Repr

/-- The spread merge `{ ...lifestyle, ...updatedInfo, user_id: user.id }`. -/
def mergeLifestyle (cache : LifestyleInfo) (upd : LifestylePatch)
    (uid : UserId) : LifestyleInfo :=
  { id := (upd.id).orElse (fun _ => cache.id)
    user_id := some uid
    activity_level := upd.activity_level.getD cache.activity_level
    smoking_status := upd.smoking_status.getD cache.smoking_status
    alcohol_consumption := upd.alcohol_consumption.getD cache.alcohol_consumption }

def authToastLifestyle : Toast :=
  ⟨"Authentication required", "Please log in to save lifestyle information", true⟩

def failToastLifestyle : Toast :=
  ⟨"Update failed", "Could not save lifestyle information", true⟩

def okToastLifestyle : Toast :=
  ⟨"Lifestyle information updated", "Your lifestyle information has been saved", false⟩

/-- Model of `updateLifestyleInfo` (lines 357-419). -/
def updateLifestyleInfo (user : Option UserId) (env : UpsertEnv)
    (cache : LifestyleInfo) (upd : LifestylePatch) : OpOut LifestyleInfo :=
  match user with
  | none => ⟨none, cache, [authToastLifestyle], []⟩
  | some uid =>
    let newLifestyle := mergeLifestyle cache upd uid
    match env.check with
    | .err => ⟨some false, cache, [failToastLifestyle], [.select]⟩
    | .found _ =>
      if env.write then ⟨some true, newLifestyle, [okToastLifestyle], [.select, .update]⟩
      else ⟨some false, cache, [failToastLifestyle], [.select, .update]⟩
    | .noRow =>
      if env.write then ⟨some true, newLifestyle, [okToastLifestyle], [.select, .insert]⟩
      else ⟨some false, cache, [failToastLifestyle], [.select, .insert]⟩

/- ---------------------------------------------------------------------- -/
/- Metrics channel: useHealthMetrics / addMetricReading, lines 425-602.    -/
/- ---------------------------------------------------------------------- -/

/-- One time-series reading `{ id, date, value }`. -/
structure MetricReading where
  id : String
  date : String
  value : ℚ
  deriving DecidableEq, Repr

/-- One metric: display name, unit, optional normal range, readings. -/
structure MetricData where
  name : String
  unit : String
  normal_range : Option (ℚ × ℚ)
  readings : List MetricReading
  deriving DecidableEq, Repr

/-- The metrics cache with JS object identity made explicit: `entries` maps
each metric key to a reference into `heap`.  The spread
`{ ...metrics }` copies `entries` but shares the referenced `MetricData`
objects, so `updatedMetrics[metricKey].readings = ...` mutates the object
the original cache also points to. -/
structure MetricsState where
  entries : List (String × Nat)
  heap : List MetricData
  deriving DecidableEq, Repr

/-- Fallback object for dangling references (never hit on well-formed
states, where every entry's reference is inside the heap). -/
def dfltMetric : MetricData := ⟨"", "", none, []⟩

/-- `metrics[key]` lookup: the reference the key maps to, if any. -/
def lookupRef (entries : List (String × Nat)) (key : String) : Option Nat :=
  (entries.find? (fun e => e.fst == key)).map (fun e => e.snd)

/-- The record value a reader of the cache observes: each key resolved
through the heap. -/
def readMetrics (st : MetricsState) : List (String × MetricData) :=
  st.entries.map (fun e => (e.fst, st.heap.getD e.snd dfltMetric))

/-- True when the character encodes a decimal digit. -/
def isDigitChar (c : Char) : Bool :=
  48 ≤ c.toNat && c.toNat ≤ 57

/-- Numeric value of a digit character. -/
def digitVal (c : Char) : Nat := c.toNat - 48

/-- Timestamp model for `new Date(s).getTime()` on ISO `YYYY-MM-DD` date
strings: a value order-isomorphic to the real millisecond timestamp on that
format (strings not of that shape collapse to 0, standing in for NaN). -/
def dateValue (s : String) : Nat :=
  match s.data with
  | [y1, y2, y3, y4, h1, m1, m2, h2, d1, d2] =>
    if h1 = '-' && h2 = '-' && isDigitChar y1 && isDigitChar y2 && isDigitChar y3 &&
        isDigitChar y4 && isDigitChar m1 && isDigitChar m2 && isDigitChar d1 &&
        isDigitChar d2 then
      (((digitVal y1 * 10 + digitVal y2) * 10 + digitVal y3) * 10 + digitVal y4) * 10000 +
        (digitVal m1 * 10 + digitVal m2) * 100 + (digitVal d1 * 10 + digitVal d2)
    else 0
  | _ => 0

/-- The comparator key order used by
`readings.sort((a, b) => new Date(a.date).getTime() - new Date(b.date).getTime())`. -/
def byDate (a b : MetricReading) : Prop := dateValue a.date ≤ dateValue b.date

instance : DecidableRel byDate := fun a b => Nat.decLe (dateValue a.date) (dateValue b.date)

instance : IsTotal MetricReading byDate :=
  ⟨fun a b => Nat.le_total (dateValue a.date) (dateValue b.date)⟩

instance : IsTrans MetricReading byDate :=
  ⟨fun _ _ _ => Nat.le_trans⟩

/-- Model of `Array.prototype.sort` with the date comparator.  ES2019 sort
is stable; insertion sort with the non-strict key order is a stable sort, so
equal-date readings keep their relative order. -/
def sortReadings (l : List MetricReading) : List MetricReading :=
  List.insertionSort byDate l

def authToastMetrics : Toast :=
  ⟨"Authentication required", "Please log in to add health metrics", true⟩

def invalidMetricToast : Toast :=
  ⟨"Invalid metric", "The specified metric type does not exist", true⟩

def failToastMetrics : Toast :=
  ⟨"Update failed", "Could not save metric reading", true⟩

def okToastMetrics (name : String) : Toast :=
  ⟨"Reading added", "New " ++ name ++ " reading has been added", false⟩

/-- Model of `addMetricReading(metricKey, date, value)` (lines 496-599).

`const updatedMetrics = { ...metrics }` is a shallow copy: it shares the
`MetricData` objects with the cache, so the subsequent
`updatedMetrics[metricKey].readings = [...]` (append then in-place sort)
mutates the object the cache's own entry references — modeled as a heap
update that happens before the remote calls, and is therefore visible to
readers of the cache even when the remote write fails.  `now` is the
`Date.now()` timestamp used for the generated reading id. -/
def addMetricReading (user : Option UserId) (env : UpsertEnv) (now : Nat)
    (st : MetricsState) (metricKey : String) (date : String) (value : ℚ) :
    OpOut MetricsState :=
  match user with
  | none => ⟨some false, st, [authToastMetrics], []⟩
  | some _ =>
    let newReading : MetricReading := ⟨metricKey ++ toString now, date, value⟩
    match lookupRef st.entries metricKey with
    | none => ⟨some false, st, [invalidMetricToast], []⟩
    | some ref =>
      let d := st.heap.getD ref dfltMetric
      let d2 := { d with readings := sortReadings (d.readings ++ [newReading]) }
      let st2 : MetricsState := ⟨st.entries, st.heap.set ref d2⟩
      match env.check with
      | .err => ⟨some false, st2, [failToastMetrics], [.select]⟩
      | .found _ =>
        if env.write then ⟨some true, st2, [okToastMetrics d.name], [.select, .update]⟩
        else ⟨some false, st2, [failToastMetrics], [.select, .update]⟩
      | .noRow =>
        if env.write then ⟨some true, st2, [okToastMetrics d.name], [.select, .insert]⟩
        else ⟨some false, st2, [failToastMetrics], [.select, .insert]⟩

/- ---------------------------------------------------------------------- -/
/- Lab Reports channel: useLabReports, lines 605-779.                      -/
/- ---------------------------------------------------------------------- -/

/-- A lab report as held in the local cache.  `status` is the runtime string
(the code narrows it by checks on load but blindly casts on insert);
`testResults` holds the decoded JSON value (`undefined` when absent or when
decoding failed). -/
structure LabReport where
  id : String
  name : String
  date : String
  status : String
  fileUrl : Option String
  testResults : Option Json

/-- A remote `health_lab_reports` row. -/
structure LabRow where
  id : String
  user_id : String
  name : String
  date : String
  status : String
  fileurl : Option String
  testresults : Option StoredPayload

/-- The Enum Normalizer applied on load: status starts as `"pending"` and is
overridden only when the remote value is exactly one of the three members. -/
def normalizeStatus (raw : String) : String :=
  if raw == "normal" || raw == "abnormal" || raw == "pending" then raw else "pending"

/-- Is this JSON value an array?  Models `Array.isArray`. -/
def isJsonArr : Json → Bool
  | .arr _ => true
  | _ => false

/-- Fetch / insert outcome from the remote store. -/
inductive FetchResult (α : Type) where
  | err
  | ok (rows : α)

def authToastLab : Toast :=
  ⟨"Authentication required", "Please log in to add lab reports", true⟩

def failToastLab : Toast :=
  ⟨"Update failed", "Could not save lab report", true⟩

def okToastLab (name : String) : Toast :=
  ⟨"Lab report added", name ++ " has been added to your lab reports", false⟩

def okToastDelete : Toast :=
  ⟨"Lab report removed", "The lab report has been removed from your records", false⟩

def failToastDelete : Toast :=
  ⟨"Delete failed", "Could not remove lab report", true⟩

/-- Model of `deleteLabReport(id)` (lines 740-776).  With no user it returns
false silently (no toast).  On remote success the local collection drops
every entry whose id equals the argument
(`reports.filter(report => report.id !== id)`). -/
def deleteLabReport (user : Option UserId) (remoteOk : Bool)
    (reports : List LabReport) (id : String) : OpOut (List LabReport) :=
  match user with
  | none => ⟨some false, reports, [], []⟩
  | some _ =>
    if remoteOk then
      ⟨some true, reports.filter (fun r => !(r.id == id)), [okToastDelete], [.delete]⟩
    else ⟨some false, reports, [failToastDelete], [.delete]⟩

/-- Model of the remote store's handling of
`.delete().eq('id', id).eq('user_id', user.id)`: only rows matching both the
report identity and the caller's identity are removed. -/
def remoteDeleteScoped (table : List LabRow) (id : String) (uid : UserId) :
    List LabRow :=
  table.filter (fun r => !(r.id == id && r.user_id == uid))

/-- The input to `addLabReport`: a report without an id. -/
structure LabReportInput where
  name : String
  date : String
  status : String
  fileUrl : Option String
  testResults : Option Json

/- ---------------------------------------------------------------------- -/
/- Codec: JSON.stringify / JSON.parse over the Json value type.            -/
/- ---------------------------------------------------------------------- -/

/-- The decimal digit character for a value below ten. -/
def digitChar (n : Nat) : Char :=
  match n with
  | 0 => '0' | 1 => '1' | 2 => '2' | 3 => '3' | 4 => '4' | 5 => '5' | 6 => '6'
  | 7 => '7' | 8 => '8' | _ => '9'

def finDigitChar (d : Fin 10) : Char := digitChar d.val

/-- The decimal digits of a natural number, most significant first. -/
def digitsOfNat (n : Nat) : List (Fin 10) :=
  if h : n < 10 then [⟨n, h⟩]
  else digitsOfNat (n / 10) ++ [⟨n % 10, Nat.mod_lt n (by omega)⟩]
decreasing_by exact Nat.div_lt_self (by omega) (by omega)

/-- The canonical decimal rendering of a natural number. -/
def natChars (n : Nat) : List Char := (digitsOfNat n).map finDigitChar

/-- Reassemble a digit list into the natural number it denotes. -/
def finsToNat (ds : List (Fin 10)) : Nat := ds.foldl (fun a d => a * 10 + d.val) 0

/-- Greedily consume leading digit characters. -/
def takeFinDigits : List Char → List (Fin 10) × List Char
  | [] => ([], [])
  | c :: cs =>
    if h : isDigitChar c = true then
      let p := takeFinDigits cs
      (⟨digitVal c, by
        have hh := h
        simp only [isDigitChar, Bool.and_eq_true, decide_eq_true_eq] at hh
        simp only [digitVal]
        omega⟩ :: p.fst, p.snd)
    else ([], c :: cs)

/-- Does the input not begin with a digit? -/
def noDigitHead : List Char → Bool
  | [] => true
  | c :: _ => !(isDigitChar c)

/-- Does the input not begin with a digit or a decimal point?  This is what
a rendered number literal may legally be followed by. -/
def noNumTail : List Char → Bool
  | [] => true
  | c :: _ => !(isDigitChar c) && !(c == '.')

/-- Lower-case hexadecimal digit character, for values below sixteen. -/
def hexDigitChar (n : Nat) : Char :=
  match n with
  | 0 => '0' | 1 => '1' | 2 => '2' | 3 => '3' | 4 => '4' | 5 => '5' | 6 => '6'
  | 7 => '7' | 8 => '8' | 9 => '9' | 10 => 'a' | 11 => 'b' | 12 => 'c' | 13 => 'd'
  | 14 => 'e' | _ => 'f'

def isHexChar (c : Char) : Bool :=
  (48 ≤ c.toNat && c.toNat ≤ 57) || (97 ≤ c.toNat && c.toNat ≤ 102) ||
    (65 ≤ c.toNat && c.toNat ≤ 70)

def hexVal (c : Char) : Nat :=
  if c.toNat ≤ 57 then c.toNat - 48
  else if c.toNat ≤ 70 then c.toNat - 55
  else c.toNat - 87

/-- The escape sequence `JSON.stringify` emits for one character inside a
string literal: quote, backslash and the named control escapes, a
`\u00XX` sequence for the remaining control characters, and the character
itself otherwise. -/
def escChar (c : Char) : List Char :=
  if c = '"' then ['\\', '"']
  else if c = '\\' then ['\\', '\\']
  else if c = '\n' then ['\\', 'n']
  else if c = '\r' then ['\\', 'r']
  else if c = '\t' then ['\\', 't']
  else if c = '\x08' then ['\\', 'b']
  else if c = '\x0c' then ['\\', 'f']
  else if c.toNat < 32 then
    ['\\', 'u', '0', '0'] ++ [hexDigitChar (c.toNat / 16), hexDigitChar (c.toNat % 16)]
  else [c]

def escBody : List Char → List Char
  | [] => []
  | c :: cs => escChar c ++ escBody cs

/-- A rendered JSON string literal. -/
def renderStr (s : List Char) : List Char := '"' :: (escBody s ++ ['"'])

/-- The fraction part of a number literal: nothing, or a point and digits. -/
def fracRender (frac : List (Fin 10)) : List Char :=
  match frac with
  | [] => []
  | _ => '.' :: frac.map finDigitChar

/-- A rendered JSON number literal. -/
def renderNum (neg : Bool) (ip : Nat) (frac : List (Fin 10)) : List Char :=
  (if neg then ['-'] else []) ++ natChars ip ++ fracRender frac

mutual

/-- `JSON.stringify` on a JSON value (no added whitespace, fields in
insertion order, strings escaped). -/
def Json.render : Json → List Char
  | .num neg ip frac => renderNum neg ip frac
  | .str s => renderStr s
  | .arr xs => '[' :: (renderItems xs ++ [']'])
  | .obj fs => '{' :: (renderFields fs ++ ['}'])
  | .bool b => if b then ['t', 'r', 'u', 'e'] else ['f', 'a', 'l', 's', 'e']
  | .null => ['n', 'u', 'l', 'l']

def renderItems : List Json → List Char
  | [] => []
  | x :: xs => Json.render x ++ ((if xs.isEmpty then [] else [',']) ++ renderItems xs)

def renderFields : List (List Char × Json) → List Char
  | [] => []
  | (k, v) :: fs =>
    renderStr k ++ (':' :: (Json.render v ++ ((if fs.isEmpty then [] else [',']) ++ renderFields fs)))

end

mutual

/-- Fuel bound for the parser: enough steps to parse a rendered value. -/
def jcost : Json → Nat
  | .arr xs => 1 + icost xs
  | .obj fs => 1 + fcost fs
  | _ => 1

def icost : List Json → Nat
  | [] => 1
  | x :: xs => 1 + max (jcost x) (icost xs)

def fcost : List (List Char × Json) → Nat
  | [] => 1
  | (_, v) :: fs => 1 + max (jcost v) (fcost fs)

end

/-- The single-character unescapes `JSON.parse` accepts after a backslash
(other than the `\uXXXX` form). -/
def unescapeChar (e : Char) : Option Char :=
  if e = '"' then some '"'
  else if e = '\\' then some '\\'
  else if e = '/' then some '/'
  else if e = 'n' then some '\n'
  else if e = 'r' then some '\r'
  else if e = 't' then some '\t'
  else if e = 'b' then some '\x08'
  else if e = 'f' then some '\x0c'
  else none

/-- Parse the body of a string literal after the opening quote, returning
the decoded characters and what follows the closing quote. -/
def parseStrBody : List Char → Option (List Char × List Char)
  | [] => none
  | c :: cs =>
    if c = '"' then some ([], cs)
    else if c = '\\' then
      match cs with
      | 'u' :: h1 :: h2 :: h3 :: h4 :: r =>
        if isHexChar h1 && isHexChar h2 && isHexChar h3 && isHexChar h4 then
          match parseStrBody r with
          | some (s, rest) =>
            some (Char.ofNat (((hexVal h1 * 16 + hexVal h2) * 16 + hexVal h3) * 16 +
              hexVal h4) :: s, rest)
          | none => none
        else none
      | e :: r =>
        match unescapeChar e with
        | some ec =>
          match parseStrBody r with
          | some (s, rest) => some (ec :: s, rest)
          | none => none
        | none => none
      | [] => none
    else
      match parseStrBody cs with
      | some (s, rest) => some (c :: s, rest)
      | none => none

/-- Parse an optional fraction part: a decimal point followed by at least
one digit, or nothing. -/
def parseFracPart (cs : List Char) : Option (List (Fin 10) × List Char) :=
  if cs.head? = some '.' then
    match cs.tail with
    | c :: _ =>
      if isDigitChar c then some (takeFinDigits cs.tail) else none
    | [] => none
  else some ([], cs)

/-- Parse the unsigned body of a number literal: digits and an optional
fraction. -/
def parseNumBody (cs : List Char) : Option ((Nat × List (Fin 10)) × List Char) :=
  match cs with
  | [] => none
  | c :: _ =>
    if isDigitChar c then
      let p := takeFinDigits cs
      match parseFracPart p.snd with
      | some q => some ((finsToNat p.fst, q.fst), q.snd)
      | none => none
    else none

/-- What the recursive parser is currently parsing: a value, the items of an
array after `[`, or the fields of an object after `{`. -/
inductive PMode where
  | val
  | items
  | fields

/-- A parse result in the corresponding mode, with the unconsumed suffix. -/
inductive PRes where
  | val (j : Json) (rest : List Char)
  | items (xs : List Json) (rest : List Char)
  | fields (fs : List (List Char × Json)) (rest : List Char)

/-- The recursive core of `JSON.parse`, structurally recursive on a fuel
bound (`jcost` of the value suffices).  Mirrors the strict JSON grammar on
whitespace-free input; a trailing comma before a closing bracket is the one
laxity, never exercised by rendered output. -/
def parseF : Nat → PMode → List Char → Option PRes
  | 0, _, _ => none
  | fuel + 1, .val, cs =>
    match cs with
    | [] => none
    | c :: rest =>
      if c = 'n' then
        match rest with
        | 'u' :: 'l' :: 'l' :: r => some (.val .null r)
        | _ => none
      else if c = 't' then
        match rest with
        | 'r' :: 'u' :: 'e' :: r => some (.val (.bool true) r)
        | _ => none
      else if c = 'f' then
        match rest with
        | 'a' :: 'l' :: 's' :: 'e' :: r => some (.val (.bool false) r)
        | _ => none
      else if c = '"' then
        match parseStrBody rest with
        | some (s, r) => some (.val (.str s) r)
        | none => none
      else if c = '[' then
        match parseF fuel .items rest with
        | some (.items xs r) => some (.val (.arr xs) r)
        | _ => none
      else if c = '{' then
        match parseF fuel .fields rest with
        | some (.fields fs r) => some (.val (.obj fs) r)
        | _ => none
      else if c = '-' then
        match parseNumBody rest with
        | some (p, r) => some (.val (.num true p.fst p.snd) r)
        | none => none
      else if isDigitChar c then
        match parseNumBody (c :: rest) with
        | some (p, r) => some (.val (.num false p.fst p.snd) r)
        | none => none
      else none
  | fuel + 1, .items, cs =>
    if cs.head? = some ']' then some (.items [] cs.tail)
    else
      match parseF fuel .val cs with
      | some (.val x cs2) =>
        match cs2 with
        | ',' :: cs3 =>
          match parseF fuel .items cs3 with
          | some (.items xs r) => some (.items (x :: xs) r)
          | _ => none
        | ']' :: r => some (.items [x] r)
        | _ => none
      | _ => none
  | fuel + 1, .fields, cs =>
    if cs.head? = some '}' then some (.fields [] cs.tail)
    else
      match cs with
      | '"' :: cs1 =>
        match parseStrBody cs1 with
        | some (k, cs2) =>
          match cs2 with
          | ':' :: cs3 =>
            match parseF fuel .val cs3 with
            | some (.val v cs4) =>
              match cs4 with
              | ',' :: cs5 =>
                match parseF fuel .fields cs5 with
                | some (.fields fs r) => some (.fields ((k, v) :: fs) r)
                | _ => none
              | '}' :: r => some (.fields [(k, v)] r)
              | _ => none
            | _ => none
          | _ => none
        | none => none
      | _ => none

/-- `JSON.stringify` producing the wire text. -/
def Json.renderString (j : Json) : String := String.mk (Json.render j)

/-- `JSON.parse`: parse a complete value from the whole input, failing (an
exception at the call site) on anything malformed. -/
def Json.parse (s : String) : Option Json :=
  match parseF (s.data.length + 1) .val s.data with
  | some (.val j []) => some j
  | _ => none

/-- Line 554: `const metricsForStorage = JSON.stringify(updatedMetrics)` —
the outbound payload of the metrics upsert is always text, never a native
structured value. -/
def metricsForStorage (d : Json) : StoredPayload := .text (Json.renderString d)

/- ---------------------------------------------------------------------- -/
/- Well-formed Metrics documents (entity invariants of section 3).         -/
/- ---------------------------------------------------------------------- -/

/-- Shape of one serialized reading: `{ id, date, value }`. -/
def isReadingObj : Json → Bool
  | .obj [(k1, .str _), (k2, .str _), (k3, .num _ _ _)] =>
    k1 == ("id").data && k2 == ("date").data && k3 == ("value").data
  | _ => false

/-- Shape of a normal range: `{ min, max }`. -/
def isRangeObj : Json → Bool
  | .obj [(k1, .num _ _ _), (k2, .num _ _ _)] =>
    k1 == ("min").data && k2 == ("max").data
  | _ => false

/-- Shape of one metric value: name, unit, optional normal range, and a
readings array of reading objects. -/
def isMetricDataObj : Json → Bool
  | .obj [(k1, .str _), (k2, .str _), (k3, r), (k4, .arr rs)] =>
    k1 == ("name").data && k2 == ("unit").data && k3 == ("normal_range").data &&
      isRangeObj r && k4 == ("readings").data && rs.all isReadingObj
  | .obj [(k1, .str _), (k2, .str _), (k4, .arr rs)] =>
    k1 == ("name").data && k2 == ("unit").data && k4 == ("readings").data &&
      rs.all isReadingObj
  | _ => false

/-- A well-formed Metrics document: an object mapping metric keys to
metric values of the declared shape. -/
def isMetricsDoc : Json → Bool
  | .obj fs => fs.all (fun f => isMetricDataObj f.snd)
  | _ => false

/- ---------------------------------------------------------------------- -/
/- Loaders (useHealthMetrics lines 455-494, useLabReports lines 611-669).  -/
/- ---------------------------------------------------------------------- -/

/-- What the `metrics` column of a fetched row contains. -/
inductive MetricsColumn where
  | absent
  | text (s : String)
  | native (j : Json)

/-- Loader of the Metrics channel (lines 461-491): on a fetch error or a
missing column the cache keeps its previous (default) value; a string
column is `JSON.parse`d, a parse failure being logged (the second component
counts `console.error` calls) and absorbed; an object column is cast and
stored as-is. -/
def loadMetrics (cache : Json) (res : FetchResult MetricsColumn) : Json × Nat :=
  match res with
  | .err => (cache, 1)
  | .ok .absent => (cache, 0)
  | .ok (.text s) =>
    match Json.parse s with
    | none => (cache, 1)
    | some j => (j, 0)
  | .ok (.native j) => (j, 0)

/-- Loader-side transform of one fetched lab-report row (lines 628-657):
status normalized, `fileurl || undefined`, test results parsed from text
(a parse failure is caught and logged, leaving the list absent) or taken
from a native array.  Second component: whether a decode error was
logged. -/
def transformLabRow (row : LabRow) : LabReport × Bool :=
  match row.testresults with
  | none =>
    (⟨row.id, row.name, row.date, normalizeStatus row.status,
      jsTruthyStr row.fileurl, none⟩, false)
  | some (.text s) =>
    match Json.parse s with
    | none =>
      (⟨row.id, row.name, row.date, normalizeStatus row.status,
        jsTruthyStr row.fileurl, none⟩, true)
    | some j =>
      (⟨row.id, row.name, row.date, normalizeStatus row.status,
        jsTruthyStr row.fileurl, some j⟩, false)
  | some (.native j) =>
    (⟨row.id, row.name, row.date, normalizeStatus row.status,
      jsTruthyStr row.fileurl, if isJsonArr j then some j else none⟩, false)

/-- Loader of the Lab Reports channel (lines 617-666): every fetched row is
transformed and placed in the cache; a fetch error keeps the previous
cache.  Second component: number of logged decode errors. -/
def loadLabReports (cache : List LabReport) (res : FetchResult (List LabRow)) :
    List LabReport × Nat :=
  match res with
  | .err => (cache, 1)
  | .ok rows =>
    ((rows.map transformLabRow).map Prod.fst,
      (rows.map transformLabRow).countP Prod.snd)

/-- Model of `addLabReport(report)` (lines 671-738).  The inserted row is
returned by `.select()`; on success with a nonempty row set the first row
is transformed back (its `testresults` string `JSON.parse`d — a throw there
lands in the outer catch) and appended to the cache.  A successful insert
returning an empty row set falls through to `return false` with no toast at
all. -/
def addLabReport (user : Option UserId) (res : FetchResult (List LabRow))
    (reports : List LabReport) (inp : LabReportInput) : OpOut (List LabReport) :=
  match user with
  | none => ⟨some false, reports, [authToastLab], []⟩
  | some _ =>
    match res with
    | .err => ⟨some false, reports, [failToastLab], [.insert]⟩
    | .ok [] => ⟨some false, reports, [], [.insert]⟩
    | .ok (row :: _) =>
      match row.testresults with
      | some (.text s) =>
        match Json.parse s with
        | none => ⟨some false, reports, [failToastLab], [.insert]⟩
        | some j =>
          ⟨some true,
            reports ++ [⟨row.id, row.name, row.date, row.status,
              jsTruthyStr row.fileurl, some j⟩],
            [okToastLab inp.name], [.insert]⟩
      | some (.native j) =>
        ⟨some true,
          reports ++ [⟨row.id, row.name, row.date, row.status,
            jsTruthyStr row.fileurl, some j⟩],
          [okToastLab inp.name], [.insert]⟩
      | none =>
        ⟨some true,
          reports ++ [⟨row.id, row.name, row.date, row.status,
            jsTruthyStr row.fileurl, none⟩],
          [okToastLab inp.name], [.insert]⟩

/- ---------------------------------------------------------------------- -/
/- Concrete states used by the claims and their witnesses.                 -/
/- ---------------------------------------------------------------------- -/

/-- A metrics cache holding a blood-pressure metric with no readings. -/
def bpState : MetricsState :=
  ⟨[(("bloodPressure" : String), 0)],
    [⟨"Blood Pressure", "mmHg", some (90, 120), []⟩]⟩

def rJan3 : MetricReading := ⟨"hr1", "2024-01-03", 70⟩

def rJan1 : MetricReading := ⟨"hr2", "2024-01-01", 72⟩

/-- A metrics cache holding a heart-rate metric with readings dated
2024-01-03 then 2024-01-01 (in that stored order). -/
def hrState : MetricsState :=
  ⟨[(("heartRate" : String), 0)],
    [⟨"Heart Rate", "bpm", some (60, 100), [rJan3, rJan1]⟩]⟩

def rEqA : MetricReading := ⟨"wA", "2024-02-02", 80⟩

def rEqB : MetricReading := ⟨"wB", "2024-02-02", 81⟩

/-- A metrics cache with two equal-date weight readings, for the sort
stability check. -/
def wState : MetricsState :=
  ⟨[(("weight" : String), 0)], [⟨"Weight", "kg", none, [rEqA, rEqB]⟩]⟩

/-- The default vitals cache (height 170, weight 68, bmi 23.5). -/
def vit0 : VitalsInfo := ⟨none, none, 170, 68, 47 / 2, "A+"⟩

/-- A concrete personal-info cache. -/
def pi0 : PersonalInfo := ⟨none, none, "Ada", 30, "female", "1 Main St", "single", 0⟩

def repA : LabReport := ⟨"a", "CBC", "2024-01-01", "normal", none, none⟩

def repB : LabReport := ⟨"b", "Lipid", "2024-02-01", "pending", none, none⟩

/-- A fetched lab row whose testresults column holds malformed text. -/
def badRow : LabRow :=
  ⟨"x", "u1", "CBC", "2024-01-01", "weird", some "", some (.text "\x7b")⟩

/-- A small well-formed Metrics document, for the round-trip witness. -/
def mdoc0 : Json :=
  .obj [(("hr").data, .obj [(("name").data, .str ("Heart Rate").data),
    (("unit").data, .str ("bpm").data),
    (("readings").data, .arr [.obj [(("id").data, .str ("hr5").data),
      (("date").data, .str ("2024-01-01").data),
      (("value").data, .num false 72 [])]])])]

/- ---------------------------------------------------------------------- -/
/- Helper lemmas: digits and number literals.                              -/
/- ---------------------------------------------------------------------- -/

theorem isDigitChar_finDigitChar (d : Fin 10) : isDigitChar (finDigitChar d) = true := by
  fin_cases d <;> decide

theorem digitVal_finDigitChar (d : Fin 10) : digitVal (finDigitChar d) = d.val := by
  fin_cases d <;> decide

theorem digit_notSpecial (c : Char) (h : isDigitChar c = true) :
    c ≠ ']' ∧ c ≠ '}' ∧ c ≠ ',' ∧ c ≠ 'n' ∧ c ≠ 't' ∧ c ≠ 'f' ∧ c ≠ '"' ∧
      c ≠ '[' ∧ c ≠ '{' ∧ c ≠ '-' ∧ c ≠ '.' ∧ c ≠ ':' := by
  refine ⟨?_, ?_, ?_, ?_, ?_, ?_, ?_, ?_, ?_, ?_, ?_, ?_⟩ <;>
    (intro hc; subst hc; exact absurd h (by decide))

theorem takeFinDigits_map (ds : List (Fin 10)) (rest : List Char)
    (h : noDigitHead rest = true) :
    takeFinDigits (ds.map finDigitChar ++ rest) = (ds, rest) := by
  induction ds with
  | nil =>
    cases rest with
    | nil => rfl
    | cons c cs =>
      simp only [noDigitHead, Bool.not_eq_true'] at h
      simp [takeFinDigits, h]
  | cons d ds ih =>
    have hd := isDigitChar_finDigitChar d
    simp [takeFinDigits, hd, ih, Fin.ext_iff, digitVal_finDigitChar]

theorem finsToNat_append_one (ds : List (Fin 10)) (d : Fin 10) :
    finsToNat (ds ++ [d]) = finsToNat ds * 10 + d.val := by
  simp [finsToNat, List.foldl_append]

theorem finsToNat_digitsOfNat (n : Nat) : finsToNat (digitsOfNat n) = n := by
  induction n using Nat.strong_induction_on with
  | _ n ih =>
    rw [digitsOfNat.eq_def]
    split
    · simp [finsToNat]
    · rename_i h
      rw [finsToNat_append_one, ih (n / 10) (Nat.div_lt_self (by omega) (by omega))]
      simp only [Fin.val_mk]
      omega

theorem digitsOfNat_ne_nil (n : Nat) : digitsOfNat n ≠ [] := by
  rw [digitsOfNat.eq_def]
  split <;> simp

theorem natChars_head_digit (n : Nat) :
    ∃ c cs, natChars n = c :: cs ∧ isDigitChar c = true := by
  unfold natChars
  cases hd : digitsOfNat n with
  | nil => exact absurd hd (digitsOfNat_ne_nil n)
  | cons d ds =>
    exact ⟨finDigitChar d, ds.map finDigitChar, by simp, isDigitChar_finDigitChar d⟩

theorem noDigitHead_fracRender (frac : List (Fin 10)) (rest : List Char)
    (h : noNumTail rest = true) : noDigitHead (fracRender frac ++ rest) = true := by
  cases frac with
  | nil =>
    cases rest with
    | nil => rfl
    | cons c cs =>
      simp only [noNumTail, Bool.and_eq_true] at h
      simpa [fracRender, noDigitHead] using h.1
  | cons f fs =>
    simp only [fracRender, List.cons_append, noDigitHead]
    decide

theorem parseNumBody_render (ip : Nat) (frac : List (Fin 10)) (rest : List Char)
    (h : noNumTail rest = true) :
    parseNumBody ((natChars ip ++ fracRender frac) ++ rest) = some ((ip, frac), rest) := by
  obtain ⟨c, cs, hnat, hdig⟩ := natChars_head_digit ip
  have htake : takeFinDigits (natChars ip ++ (fracRender frac ++ rest)) =
      (digitsOfNat ip, fracRender frac ++ rest) := by
    unfold natChars
    exact takeFinDigits_map _ _ (noDigitHead_fracRender frac rest h)
  have hfrac : parseFracPart (fracRender frac ++ rest) = some (frac, rest) := by
    cases frac with
    | nil =>
      cases rest with
      | nil => rfl
      | cons c2 cs2 =>
        simp only [noNumTail, Bool.and_eq_true, Bool.not_eq_true'] at h
        have : ¬ (c2 = '.') := by
          intro hc; apply absurd h.2; simp [hc]
        simp [fracRender, parseFracPart, this]
    | cons f fs =>
      have hd := isDigitChar_finDigitChar f
      have hnd : noDigitHead rest = true := by
        cases rest with
        | nil => rfl
        | cons c2 cs2 =>
          simp only [noNumTail, Bool.and_eq_true, Bool.not_eq_true'] at h
          simp [noDigitHead, h.1]
      have htk := takeFinDigits_map (f :: fs) rest hnd
      simp only [List.map_cons, List.cons_append] at htk
      simp [fracRender, parseFracPart, hd, htk]
  rw [List.append_assoc, hnat]
  simp only [parseNumBody, List.cons_append, hdig, reduceIte]
  rw [show (c :: (cs ++ (fracRender frac ++ rest))) =
    (natChars ip ++ (fracRender frac ++ rest)) by simp [hnat]]
  rw [htake]
  simp [hfrac, finsToNat_digitsOfNat]

/- ---------------------------------------------------------------------- -/
/- Helper lemmas: string literals.                                         -/
/- ---------------------------------------------------------------------- -/

theorem hexDigitChar_facts (n : Nat) (h : n < 16) :
    isHexChar (hexDigitChar n) = true ∧ hexVal (hexDigitChar n) = n := by
  interval_cases n <;> exact ⟨by decide, by decide⟩

theorem parseStrBody_escBody (s : List Char) (rest : List Char) :
    parseStrBody (escBody s ++ ('"' :: rest)) = some (s, rest) := by
  induction s with
  | nil =>
    rw [escBody, List.nil_append, parseStrBody.eq_def]
    simp
  | cons c s ih =>
    simp only [escBody, List.append_assoc]
    by_cases h1 : c = '"'
    · subst h1
      simp only [escChar, reduceIte, List.cons_append, List.nil_append]
      rw [parseStrBody.eq_def]
      simp [unescapeChar, ih]
    · by_cases h2 : c = '\\'
      · subst h2
        simp only [escChar, reduceIte, List.cons_append, List.nil_append]
        rw [parseStrBody.eq_def]
        simp [unescapeChar, ih]
      · by_cases h3 : c = '\n'
        · subst h3
          simp only [escChar, reduceIte, List.cons_append, List.nil_append]
          rw [parseStrBody.eq_def]
          simp [unescapeChar, ih]
        · by_cases h4 : c = '\r'
          · subst h4
            simp only [escChar, reduceIte, List.cons_append, List.nil_append]
            rw [parseStrBody.eq_def]
            simp [unescapeChar, ih]
          · by_cases h5 : c = '\t'
            · subst h5
              simp only [escChar, reduceIte, List.cons_append, List.nil_append]
              rw [parseStrBody.eq_def]
              simp [unescapeChar, ih]
            · by_cases h6 : c = '\x08'
              · subst h6
                simp only [escChar, reduceIte, List.cons_append, List.nil_append]
                rw [parseStrBody.eq_def]
                simp [unescapeChar, ih]
              · by_cases h7 : c = '\x0c'
                · subst h7
                  simp only [escChar, reduceIte, List.cons_append, List.nil_append]
                  rw [parseStrBody.eq_def]
                  simp [unescapeChar, ih]
                · by_cases h8 : c.toNat < 32
                  · have hhi := hexDigitChar_facts (c.toNat / 16) (by omega)
                    have hlo := hexDigitChar_facts (c.toNat % 16) (by omega)
                    have h0 : hexVal '0' = 0 := by decide
                    have hx0 : isHexChar '0' = true := by decide
                    simp only [escChar, h1, h2, h3, h4, h5, h6, h7, h8, if_false,
                      if_true, List.cons_append, List.nil_append]
                    rw [parseStrBody.eq_def]
                    simp only [reduceIte, hx0, hhi.1, hlo.1, Bool.and_self,
                      Bool.and_true, Bool.true_and, ih]
                    have harg : ((hexVal '0' * 16 + hexVal '0') * 16 +
                        hexVal (hexDigitChar (c.toNat / 16))) * 16 +
                        hexVal (hexDigitChar (c.toNat % 16)) = c.toNat := by
                      rw [hhi.2, hlo.2, h0]
                      omega
                    simp [harg, Char.ofNat_toNat]
                  · simp only [escChar, h1, h2, h3, h4, h5, h6, h7, h8, if_false,
                      List.cons_append, List.nil_append]
                    rw [parseStrBody.eq_def]
                    simp [h1, h2, ih]

/- ---------------------------------------------------------------------- -/
/- Helper lemmas: the parser inverts the renderer.                         -/
/- ---------------------------------------------------------------------- -/

theorem jcost_pos (j : Json) : 1 ≤ jcost j := by
  cases j <;> simp [jcost]

theorem icost_pos (xs : List Json) : 1 ≤ icost xs := by
  cases xs <;> simp [icost]

theorem fcost_pos (fs : List (List Char × Json)) : 1 ≤ fcost fs := by
  cases fs <;> simp [fcost]

theorem render_head (j : Json) :
    ∃ c cs, Json.render j = c :: cs ∧ c ≠ ']' ∧ c ≠ '}' := by
  cases j with
  | null => exact ⟨'n', _, rfl, by decide, by decide⟩
  | bool b => cases b <;> exact ⟨_, _, rfl, by decide, by decide⟩
  | num neg ip frac =>
    cases neg with
    | true =>
      refine ⟨'-', natChars ip ++ fracRender frac, ?_, by decide, by decide⟩
      rw [Json.render]
      simp [renderNum]
    | false =>
      obtain ⟨c, cs, hnat, hdig⟩ := natChars_head_digit ip
      have hs := digit_notSpecial c hdig
      refine ⟨c, cs ++ fracRender frac, ?_, hs.1, hs.2.1⟩
      rw [Json.render]
      simp [renderNum, hnat]
  | str s => exact ⟨'"', _, rfl, by decide, by decide⟩
  | arr xs => exact ⟨'[', _, rfl, by decide, by decide⟩
  | obj fs => exact ⟨'{', _, rfl, by decide, by decide⟩

theorem parseF_render_all (fuel : Nat) :
    (∀ j rest, jcost j ≤ fuel → noNumTail rest = true →
      parseF fuel .val (Json.render j ++ rest) = some (.val j rest)) ∧
    (∀ xs rest, icost xs ≤ fuel →
      parseF fuel .items (renderItems xs ++ (']' :: rest)) = some (.items xs rest)) ∧
    (∀ fs rest, fcost fs ≤ fuel →
      parseF fuel .fields (renderFields fs ++ ('}' :: rest)) = some (.fields fs rest)) := by
  induction fuel with
  | zero =>
    refine ⟨fun j rest hj _ => absurd hj (by have := jcost_pos j; omega),
      fun xs rest hx => absurd hx (by have := icost_pos xs; omega),
      fun fs rest hf => absurd hf (by have := fcost_pos fs; omega)⟩
  | succ fuel ih =>
    obtain ⟨ihv, ihi, ihf⟩ := ih
    refine ⟨?_, ?_, ?_⟩
    · intro j rest hj hrest
      cases j with
      | null => simp [Json.render, parseF]
      | bool b => cases b <;> simp [Json.render, parseF]
      | str s =>
        rw [Json.render]
        simp only [renderStr, List.cons_append, List.append_assoc, List.nil_append]
        simp [parseF, parseStrBody_escBody]
      | num neg ip frac =>
        cases neg with
        | true =>
          rw [Json.render]
          simp only [renderNum, reduceIte, List.cons_append, List.append_assoc,
            List.nil_append]
          simp [parseF]
          rw [← List.append_assoc, parseNumBody_render ip frac rest hrest]
        | false =>
          obtain ⟨c, cs, hnat, hdig⟩ := natChars_head_digit ip
          have hs := digit_notSpecial c hdig
          rw [Json.render]
          simp only [renderNum, Bool.false_eq_true, reduceIte, List.nil_append,
            hnat, List.cons_append, List.append_assoc]
          simp only [parseF, hs.2.2.2.1, hs.2.2.2.2.1, hs.2.2.2.2.2.1,
            hs.2.2.2.2.2.2.1, hs.2.2.2.2.2.2.2.1, hs.2.2.2.2.2.2.2.2.1,
            hs.2.2.2.2.2.2.2.2.2.1, if_false, hdig, if_true, reduceIte]
          rw [show (c :: (cs ++ (fracRender frac ++ rest))) =
            ((natChars ip ++ fracRender frac) ++ rest) by simp [hnat]]
          rw [parseNumBody_render ip frac rest hrest]
      | arr xs =>
        rw [Json.render]
        simp only [List.cons_append, List.append_assoc, List.singleton_append]
        have hx : icost xs ≤ fuel := by
          rw [jcost] at hj
          omega
        simp [parseF, ihi xs rest hx]
      | obj fs =>
        rw [Json.render]
        simp only [List.cons_append, List.append_assoc, List.singleton_append]
        have hf : fcost fs ≤ fuel := by
          rw [jcost] at hj
          omega
        simp [parseF, ihf fs rest hf]
    · intro xs rest hx
      cases xs with
      | nil =>
        rw [renderItems, List.nil_append, parseF]
        simp
      | cons x xs =>
        obtain ⟨c, cs, hrend, hc1, hc2⟩ := render_head x
        have hjx : jcost x ≤ fuel := by
          rw [icost] at hx
          omega
        cases xs with
        | nil =>
          rw [renderItems, renderItems]
          simp only [List.isEmpty_nil, reduceIte, List.nil_append, List.append_nil,
            List.append_assoc]
          have hv := ihv x (']' :: rest) hjx (by rfl)
          rw [parseF, hrend]
          rw [hrend] at hv
          simp only [List.cons_append, List.head?_cons]
          rw [if_neg (by simp [hc1])]
          simp only [List.cons_append] at hv
          simp [hv]
        | cons y ys =>
          rw [renderItems]
          simp only [List.isEmpty_cons, Bool.false_eq_true, reduceIte,
            List.singleton_append, List.cons_append, List.append_assoc]
          have hiy : icost (y :: ys) ≤ fuel := by
            rw [icost] at hx
            omega
          have hv := ihv x (',' :: (renderItems (y :: ys) ++ (']' :: rest))) hjx (by rfl)
          have hi := ihi (y :: ys) rest hiy
          rw [parseF, hrend]
          rw [hrend] at hv
          simp only [List.cons_append, List.append_assoc, List.head?_cons]
          rw [if_neg (by simp [hc1])]
          simp only [List.cons_append, List.append_assoc] at hv
          simp [hv, hi]
    · intro fs rest hf
      cases fs with
      | nil =>
        rw [renderFields, List.nil_append, parseF] <;> simp
      | cons kv fs =>
        obtain ⟨k, v⟩ := kv
        have hjv : jcost v ≤ fuel := by
          rw [fcost] at hf
          omega
        cases fs with
        | nil =>
          rw [renderFields, renderFields]
          simp only [List.isEmpty_nil, reduceIte, List.nil_append, List.append_nil,
            List.append_assoc]
          have hv := ihv v ('}' :: rest) hjv (by rfl)
          simp only [renderStr, List.cons_append, List.append_assoc, List.nil_append]
          rw [parseF]
          simp [parseStrBody_escBody, hv]
        | cons kv2 fs =>
          rw [renderFields]
          simp only [List.isEmpty_cons, Bool.false_eq_true, reduceIte,
            List.singleton_append, List.cons_append, List.append_assoc]
          have hif : fcost (kv2 :: fs) ≤ fuel := by
            rw [fcost] at hf
            omega
          have hv := ihv v (',' :: (renderFields (kv2 :: fs) ++ ('}' :: rest))) hjv
            (by rfl)
          have hi := ihf (kv2 :: fs) rest hif
          simp only [renderStr, List.cons_append, List.append_assoc, List.nil_append]
          rw [parseF]
          simp only [List.cons_append, List.append_assoc] at hv
          simp [parseStrBody_escBody, hv, hi]

theorem render_ne_nil (j : Json) : Json.render j ≠ [] := by
  obtain ⟨c, cs, h, -, -⟩ := render_head j
  simp [h]

mutual

theorem jcost_le_render (j : Json) : jcost j ≤ (Json.render j).length := by
  cases j with
  | null => simp [jcost, Json.render]
  | bool b => cases b <;> simp [jcost, Json.render]
  | num neg ip frac =>
    have h2 : jcost (.num neg ip frac) = 1 := by simp [jcost]
    have h1 : 1 ≤ (Json.render (.num neg ip frac)).length := by
      cases hr : Json.render (.num neg ip frac) with
      | nil => exact absurd hr (render_ne_nil _)
      | cons a l => simp
    omega
  | str s =>
    have h2 : jcost (.str s) = 1 := by simp [jcost]
    have h1 : 1 ≤ (Json.render (.str s)).length := by
      rw [Json.render]
      simp [renderStr]
    omega
  | arr xs =>
    have hi := icost_le_renderItems xs
    rw [jcost, Json.render]
    simp
    omega
  | obj fs =>
    have hf := fcost_le_renderFields fs
    rw [jcost, Json.render]
    simp
    omega

theorem icost_le_renderItems (xs : List Json) :
    icost xs ≤ (renderItems xs).length + 1 := by
  cases xs with
  | nil => simp [icost, renderItems]
  | cons x xs =>
    have hx := jcost_le_render x
    have hxs := icost_le_renderItems xs
    have hpos : 1 ≤ (Json.render x).length := by
      cases hr : Json.render x with
      | nil => exact absurd hr (render_ne_nil x)
      | cons a l => simp
    rw [icost, renderItems]
    cases xs with
    | nil =>
      simp only [List.isEmpty_nil, reduceIte, List.nil_append]
      simp [icost] at hxs ⊢
      omega
    | cons y ys =>
      simp only [List.isEmpty_cons, Bool.false_eq_true, reduceIte]
      simp
      omega

theorem fcost_le_renderFields (fs : List (List Char × Json)) :
    fcost fs ≤ (renderFields fs).length + 1 := by
  cases fs with
  | nil => simp [fcost, renderFields]
  | cons kv fs =>
    obtain ⟨k, v⟩ := kv
    have hv := jcost_le_render v
    have hfs := fcost_le_renderFields fs
    rw [fcost, renderFields]
    cases fs with
    | nil =>
      simp only [List.isEmpty_nil, reduceIte, List.nil_append]
      simp [fcost] at hfs ⊢
      omega
    | cons kv2 ys =>
      simp only [List.isEmpty_cons, Bool.false_eq_true, reduceIte]
      simp
      omega

end

/-- The codec round trip at the top level: parsing a rendered value
recovers it exactly. -/
theorem Json.parse_renderString (j : Json) :
    Json.parse (Json.renderString j) = some j := by
  unfold Json.parse Json.renderString
  show (match parseF ((Json.render j).length + 1) .val (Json.render j) with
    | some (.val j []) => some j
    | _ => none) = some j
  have hfuel : jcost j ≤ (Json.render j).length + 1 :=
    le_trans (jcost_le_render j) (by omega)
  have h := (parseF_render_all ((Json.render j).length + 1)).1 j [] hfuel (by rfl)
  rw [List.append_nil] at h
  rw [h]

/- ---------------------------------------------------------------------- -/
/- Helper lemmas for the claims.                                           -/
/- ---------------------------------------------------------------------- -/

theorem calculateBMI_170_68 : calculateBMI 170 68 = 47 / 2 := by
  unfold calculateBMI round1
  rw [if_neg (by norm_num)]
  rw [show ((68 : ℚ) / ((170 / 100) * (170 / 100)) * 10 + 1 / 2) = 136289 / 578 by
    norm_num]
  rw [show (⌊(136289 / 578 : ℚ)⌋ = 235) from by
    rw [Int.floor_eq_iff]
    norm_num]
  norm_num

theorem calculateBMI_zero_height : calculateBMI 0 68 = 0 := by
  unfold calculateBMI round1
  norm_num

theorem countP_filter_not_length (p : LabReport → Bool) (l : List LabReport) :
    l.countP p + (l.filter (fun r => !(p r))).length = l.length := by
  induction l with
  | nil => simp
  | cons r rs ih =>
    by_cases h : p r = true <;> simp [h, List.countP_cons, ← ih] <;> omega

/- ---------------------------------------------------------------------- -/
/- The claims.                                                             -/
/- ---------------------------------------------------------------------- -/

/-- C1: the claim fails on the code.  In addMetricReading the shallow copy
`{ ...metrics }` shares the MetricData objects with the cache, and
`updatedMetrics[metricKey].readings = [...]` reassigns the shared object's
readings before the remote call, so a failed remote write (here: the update
fails) returns false yet leaves the appended, re-sorted reading visible to
readers of the cache — contradicting the claim that the cache is exactly
what it was before the call on every failure path. -/
theorem c1_failed_write_mutates_metrics_cache :
    ((addMetricReading (some ("u")) ⟨.found ("r"), false⟩ 99 bpState
      ("bloodPressure") ("2024-01-01") 120).ret = some false) ∧
    readMetrics (addMetricReading (some ("u")) ⟨.found ("r"), false⟩ 99 bpState
      ("bloodPressure") ("2024-01-01") 120).cache ≠ readMetrics bpState := by
  refine ⟨rfl, ?_⟩
  have h1 : readMetrics (addMetricReading (some ("u")) ⟨.found ("r"), false⟩ 99 bpState
      ("bloodPressure") ("2024-01-01") 120).cache =
      [(("bloodPressure" : String), ⟨"Blood Pressure", "mmHg", some (90, 120),
        [⟨"bloodPressure99", "2024-01-01", 120⟩]⟩)] := rfl
  have h2 : readMetrics bpState =
      [(("bloodPressure" : String), ⟨"Blood Pressure", "mmHg", some (90, 120), []⟩)] := rfl
  rw [h1, h2]
  simp

/-- C2 counterexample to the claim as stated: with no active user,
updatePersonalInfo returns undefined (`none`), not the boolean false, and
deleteLabReport emits no notification at all. -/
theorem c2_counterexample :
    ((updatePersonalInfo none ⟨.noRow, true⟩ pi0 {}).ret ≠ some false) ∧
    (deleteLabReport none true [] ("r1")).toasts = [] :=
  ⟨by decide, rfl⟩

/-- C2 amended: with no active user every write operation performs zero
remote calls and leaves the cache unchanged; updatePersonalInfo,
updateVitalsInfo and updateLifestyleInfo emit a destructive notification
but return undefined rather than a boolean; addMetricReading and
addLabReport emit a destructive notification and return false;
deleteLabReport returns false with no notification. -/
theorem c2_noUser_behavior (env : UpsertEnv) (pc : PersonalInfo)
    (pp : PersonalInfoPatch) (vc : VitalsInfo) (vp : VitalsPatch)
    (lc : LifestyleInfo) (lp : LifestylePatch) (now : Nat) (st : MetricsState)
    (key date : String) (v : ℚ) (res : FetchResult (List LabRow))
    (reports : List LabReport) (inp : LabReportInput) (ok : Bool) (rid : String) :
    updatePersonalInfo none env pc pp = ⟨none, pc, [authToastPersonal], []⟩ ∧
    updateVitalsInfo none env vc vp = ⟨none, vc, [authToastVitals], []⟩ ∧
    updateLifestyleInfo none env lc lp = ⟨none, lc, [authToastLifestyle], []⟩ ∧
    addMetricReading none env now st key date v =
      ⟨some false, st, [authToastMetrics], []⟩ ∧
    addLabReport none res reports inp = ⟨some false, reports, [authToastLab], []⟩ ∧
    deleteLabReport none ok reports rid = ⟨some false, reports, [], []⟩ ∧
    authToastPersonal.destructive = true ∧ authToastVitals.destructive = true ∧
    authToastLifestyle.destructive = true ∧ authToastMetrics.destructive = true ∧
    authToastLab.destructive = true :=
  ⟨rfl, rfl, rfl, rfl, rfl, rfl, rfl, rfl, rfl, rfl, rfl⟩

/-- C3 counterexample to the claim as stated: starting from the default
vitals (170, 68, 23.5), a successful update supplying height = 0 stores
height 0 while the stored bmi stays 23.5 (computed from the falsy-corrected
previous height), so the stored bmi is not the BMI formula of the stored
height and weight. -/
theorem c3_counterexample :
    ((updateVitalsInfo (some ("u")) ⟨.found ("r"), true⟩ vit0
      { height := some 0 }).ret = some true) ∧
    ((updateVitalsInfo (some ("u")) ⟨.found ("r"), true⟩ vit0
      { height := some 0 }).cache.height = 0) ∧
    ((updateVitalsInfo (some ("u")) ⟨.found ("r"), true⟩ vit0
      { height := some 0 }).cache.bmi = 47 / 2) ∧
    calculateBMI
      ((updateVitalsInfo (some ("u")) ⟨.found ("r"), true⟩ vit0
        { height := some 0 }).cache.height)
      ((updateVitalsInfo (some ("u")) ⟨.found ("r"), true⟩ vit0
        { height := some 0 }).cache.weight) ≠
      (updateVitalsInfo (some ("u")) ⟨.found ("r"), true⟩ vit0
        { height := some 0 }).cache.bmi := by
  have hj : jsOr (some 0) (170 : ℚ) = 170 := by simp [jsOr]
  have hbmi : (updateVitalsInfo (some ("u")) ⟨.found ("r"), true⟩ vit0
      { height := some 0 }).cache.bmi = calculateBMI 170 68 := by
    show calculateBMI (jsOr (some 0) (170 : ℚ)) (jsOr none (68 : ℚ)) = calculateBMI 170 68
    rw [hj]
    rfl
  refine ⟨rfl, rfl, ?_, ?_⟩
  · rw [hbmi, calculateBMI_170_68]
  · rw [hbmi, calculateBMI_170_68]
    show calculateBMI 0 68 ≠ 47 / 2
    rw [calculateBMI_zero_height]
    norm_num

/-- C3 amended: after every successful updateVitalsInfo the stored bmi
equals calculateBMI of the falsy-corrected inputs (a supplied zero height
or weight falls back to the cached value for the computation while the zero
itself is stored); whenever the update does not supply a zero height or
weight, the stored bmi is exactly the BMI formula of the stored height and
weight; and a caller-supplied bmi never influences the stored bmi. -/
theorem c3_bmi_invariant (uid : UserId) (env : UpsertEnv) (cache : VitalsInfo)
    (upd : VitalsPatch)
    (hs : (updateVitalsInfo (some uid) env cache upd).ret = some true) :
    ((updateVitalsInfo (some uid) env cache upd).cache.bmi =
      calculateBMI (jsOr upd.height cache.height) (jsOr upd.weight cache.weight)) ∧
    (upd.height ≠ some 0 → upd.weight ≠ some 0 →
      (updateVitalsInfo (some uid) env cache upd).cache.bmi =
        calculateBMI ((updateVitalsInfo (some uid) env cache upd).cache.height)
          ((updateVitalsInfo (some uid) env cache upd).cache.weight)) ∧
    (∀ b : ℚ,
      (updateVitalsInfo (some uid) env cache { upd with bmi := some b }).cache.bmi =
        (updateVitalsInfo (some uid) env cache upd).cache.bmi) := by
  obtain ⟨chk, wr⟩ := env
  cases chk <;> cases wr <;> try (exact Bool.noConfusion (Option.some.inj hs))
  all_goals refine ⟨rfl, ?_, fun b => rfl⟩
  all_goals
    intro h0 hw0
    show calculateBMI (jsOr upd.height cache.height) (jsOr upd.weight cache.weight) =
      calculateBMI (upd.height.getD cache.height) (upd.weight.getD cache.weight)
    congr 1
    · cases hh : upd.height with
      | none => rfl
      | some v =>
        have hv : v ≠ 0 := fun hv => h0 (by rw [hh, hv])
        simp [jsOr, hv]
    · cases hh : upd.weight with
      | none => rfl
      | some v =>
        have hv : v ≠ 0 := fun hv => hw0 (by rw [hh, hv])
        simp [jsOr, hv]

theorem c3_bmi_invariant_witness :
    ((updateVitalsInfo (some ("u")) ⟨.found ("r"), true⟩ vit0
      { weight := some 70 }).ret = some true) ∧
    ((updateVitalsInfo (some ("u")) ⟨.found ("r"), true⟩ vit0
      { weight := some 70 }).cache.bmi =
      calculateBMI
        ((updateVitalsInfo (some ("u")) ⟨.found ("r"), true⟩ vit0
          { weight := some 70 }).cache.height)
        ((updateVitalsInfo (some ("u")) ⟨.found ("r"), true⟩ vit0
          { weight := some 70 }).cache.weight)) :=
  ⟨rfl, (c3_bmi_invariant ("u") ⟨.found ("r"), true⟩ vit0 { weight := some 70 }
    rfl).2.1 (by simp) (by simp)⟩

/-- C4: a successful deleteLabReport returns true and removes from the
local collection exactly the entries whose id equals the argument — exactly
one entry when the id occurs exactly once — keeping every other entry; an
id absent from the caller's own collection (such as one belonging to a
different user) leaves the collection unchanged; and the remote delete is
scoped by both report identity and user identity, leaving every row of any
other user (or any other id) in place. -/
theorem c4_delete_by_identity (uid : UserId) (reports : List LabReport) (id : String) :
    ((deleteLabReport (some uid) true reports id).ret = some true) ∧
    (reports.countP (fun r => r.id == id) = 1 →
      (deleteLabReport (some uid) true reports id).cache.length + 1 = reports.length) ∧
    (∀ r ∈ (deleteLabReport (some uid) true reports id).cache,
      r.id ≠ id ∧ r ∈ reports) ∧
    ((∀ r ∈ reports, r.id ≠ id) →
      (deleteLabReport (some uid) true reports id).cache = reports) ∧
    (∀ (table : List LabRow) (r : LabRow), r ∈ table →
      r.id ≠ id ∨ r.user_id ≠ uid → r ∈ remoteDeleteScoped table id uid) := by
  have hc : (deleteLabReport (some uid) true reports id).cache =
      reports.filter (fun r => !(r.id == id)) := rfl
  refine ⟨rfl, ?_, ?_, ?_, ?_⟩
  · intro h1
    have hcnt := countP_filter_not_length (fun r => r.id == id) reports
    rw [h1] at hcnt
    rw [hc]
    omega
  · intro r hr
    rw [hc] at hr
    have hm := List.mem_filter.mp hr
    refine ⟨?_, hm.1⟩
    have hb := hm.2
    simp only [Bool.not_eq_true'] at hb
    intro he
    simp [he] at hb
  · intro hall
    rw [hc]
    apply List.filter_eq_self.mpr
    intro r hr
    simp [hall r hr]
  · intro table r hrt hor
    apply List.mem_filter.mpr
    refine ⟨hrt, ?_⟩
    cases hor with
    | inl h => simp [h]
    | inr h => simp [h]

theorem c4_witness :
    (([repA, repB] : List LabReport).countP (fun r => r.id == ("a")) = 1) ∧
    (deleteLabReport (some ("u")) true [repA, repB] ("a")).cache.length + 1 =
      ([repA, repB] : List LabReport).length :=
  ⟨by rfl, (c4_delete_by_identity ("u") [repA, repB] ("a")).2.1 (by rfl)⟩

/-- C5: for every well-formed Metrics document, the Loader-side decode
(JSON.parse) of the pre-transmission encode (JSON.stringify) recovers the
document exactly, and the outbound payload is always text, never a native
structured value. -/
theorem c5_codec_round_trip (d : Json) (_hd : isMetricsDoc d = true) :
    Json.parse (Json.renderString d) = some d ∧
    ∃ s : String, metricsForStorage d = StoredPayload.text s :=
  ⟨Json.parse_renderString d, ⟨Json.renderString d, rfl⟩⟩

theorem c5_witness :
    (isMetricsDoc mdoc0 = true) ∧ Json.parse (Json.renderString mdoc0) = some mdoc0 :=
  ⟨rfl, (c5_codec_round_trip mdoc0 rfl).1⟩

/-- C6: when the metric key is declared, addMetricReading appends one
reading whose id is the metric key followed by the creation timestamp and
re-sorts that metric's entire reading sequence by date: the resulting
sequence is non-decreasing by date and a permutation of the old sequence
plus the new reading.  On the concrete [01-03, 01-01] example, adding a
01-02 reading yields [01-01, 01-02, 01-03]; and on an equal-date example
insertion order is preserved (the modeled sort, like the ES2019 sort the
code relies on, is stable). -/
theorem c6_addReading_appends_and_sorts (uid : UserId) (env : UpsertEnv) (now : Nat)
    (st : MetricsState) (key date : String) (v : ℚ) (ref : Nat)
    (href : lookupRef st.entries key = some ref) (hlen : ref < st.heap.length) :
    (((addMetricReading (some uid) env now st key date v).cache.heap.getD ref
        dfltMetric).readings =
      sortReadings ((st.heap.getD ref dfltMetric).readings ++
        [⟨key ++ toString now, date, v⟩])) ∧
    List.Sorted byDate
      (((addMetricReading (some uid) env now st key date v).cache.heap.getD ref
        dfltMetric).readings) ∧
    List.Perm
      (((addMetricReading (some uid) env now st key date v).cache.heap.getD ref
        dfltMetric).readings)
      ((st.heap.getD ref dfltMetric).readings ++ [⟨key ++ toString now, date, v⟩]) ∧
    (((addMetricReading (some ("u")) ⟨.found ("r"), true⟩ 5 hrState ("heartRate")
      ("2024-01-02") 75).cache.heap.getD 0 dfltMetric).readings =
      [rJan1, ⟨"heartRate5", "2024-01-02", 75⟩, rJan3]) ∧
    (((addMetricReading (some ("u")) ⟨.found ("r"), true⟩ 7 wState ("weight")
      ("2024-02-02") 82).cache.heap.getD 0 dfltMetric).readings =
      [rEqA, rEqB, ⟨"weight7", "2024-02-02", 82⟩]) := by
  have hcache : (addMetricReading (some uid) env now st key date v).cache =
      ⟨st.entries, st.heap.set ref { st.heap.getD ref dfltMetric with
        readings := sortReadings ((st.heap.getD ref dfltMetric).readings ++
          [⟨key ++ toString now, date, v⟩]) }⟩ := by
    obtain ⟨chk, wr⟩ := env
    cases chk <;> cases wr <;> simp [addMetricReading, href]
  have hget : ((addMetricReading (some uid) env now st key date v).cache.heap.getD ref
      dfltMetric) =
      { st.heap.getD ref dfltMetric with
        readings := sortReadings ((st.heap.getD ref dfltMetric).readings ++
          [⟨key ++ toString now, date, v⟩]) } := by
    rw [hcache]
    simp [List.getD, List.getElem?_set_self, hlen]
  refine ⟨by rw [hget], ?_, ?_, rfl, rfl⟩
  · rw [hget]
    exact List.sorted_insertionSort byDate _
  · rw [hget]
    exact List.perm_insertionSort byDate _

theorem c6_witness :
    (lookupRef hrState.entries ("heartRate") = some 0) ∧
    (((addMetricReading (some ("u")) ⟨.found ("r"), true⟩ 5 hrState ("heartRate")
      ("2024-01-02") 75).cache.heap.getD 0 dfltMetric).readings =
      [rJan1, ⟨"heartRate5", "2024-01-02", 75⟩, rJan3]) :=
  ⟨rfl, (c6_addReading_appends_and_sorts ("u") ⟨.found ("r"), true⟩ 5 hrState
    ("heartRate") ("2024-01-02") 75 0 rfl (by decide)).2.2.2.1⟩

/-- C7: an undeclared metric key (for example "nonexistent" or the empty
string) makes addMetricReading fail with the invalid-metric notification
and a false return, performing no remote call and leaving the metrics
document — both the key set and every metric's readings — completely
unchanged. -/
theorem c7_unknown_metric_rejected (uid : UserId) (env : UpsertEnv) (now : Nat)
    (st : MetricsState) (key date : String) (v : ℚ)
    (h : lookupRef st.entries key = none) :
    addMetricReading (some uid) env now st key date v =
      ⟨some false, st, [invalidMetricToast], []⟩ := by
  simp [addMetricReading, h]

theorem c7_witness :
    (lookupRef hrState.entries ("nonexistent") = none) ∧
    addMetricReading (some ("u")) ⟨.found ("r"), true⟩ 5 hrState ("nonexistent")
      ("2024-01-02") 75 = ⟨some false, hrState, [invalidMetricToast], []⟩ :=
  ⟨rfl, c7_unknown_metric_rejected ("u") ⟨.found ("r"), true⟩ 5 hrState
    ("nonexistent") ("2024-01-02") 75 rfl⟩

/-- C9: a malformed text payload is absorbed at the decode boundary: the
metrics loader logs the failure and keeps the cache's previous value, a
lab-report row whose testresults text fails to parse is still placed in the
cache with its test-result list absent (and the failure logged), and the
lab loader places every fetched row; nothing is surfaced to the caller. -/
theorem c9_decode_failure_absorbed (cache : Json) (s : String)
    (hbad : Json.parse s = none) :
    loadMetrics cache (.ok (.text s)) = (cache, 1) ∧
    (∀ row : LabRow, row.testresults = some (.text s) →
      (transformLabRow row).fst = ⟨row.id, row.name, row.date,
        normalizeStatus row.status, jsTruthyStr row.fileurl, none⟩ ∧
      (transformLabRow row).snd = true) ∧
    (∀ (c : List LabReport) (rows : List LabRow),
      (loadLabReports c (.ok rows)).fst.length = rows.length) := by
  refine ⟨by simp [loadMetrics, hbad], ?_, ?_⟩
  · intro row hrow
    constructor <;> simp [transformLabRow, hrow, hbad]
  · intro c rows
    simp [loadLabReports]

theorem c9_witness :
    (Json.parse ("\x7b") = none) ∧
    loadMetrics mdoc0 (.ok (.text ("\x7b"))) = (mdoc0, 1) :=
  ⟨rfl, (c9_decode_failure_absorbed mdoc0 ("\x7b") rfl).1⟩

/-- C10: when the remote insert succeeds but returns an empty row set,
addLabReport returns false, leaves the local reports cache unchanged and
emits no notification at all — a silent failure mode outside the error
taxonomy. -/
theorem c10_empty_insert_silent (uid : UserId) (reports : List LabReport)
    (inp : LabReportInput) :
    addLabReport (some uid) (.ok []) reports inp =
      ⟨some false, reports, [], [.insert]⟩ := rfl

/-- C8: calculateBMI is the pure function weight/(height/100)^2 rounded to
exactly one decimal by round-half-away-from-zero (the toFixed(1) boundary);
on equal inputs two calls give the same value, and
calculateBMI 170 68 = 23.5. -/
theorem c8_calculateBMI_contract (h w : ℚ) (hh : 0 < h) :
    calculateBMI h w = round1 (w / ((h / 100) * (h / 100))) ∧
    calculateBMI h w = calculateBMI h w ∧
    calculateBMI 170 68 = 47 / 2 :=
  ⟨rfl, rfl, calculateBMI_170_68⟩

theorem c8_witness :
    ((0 : ℚ) < 170) ∧ calculateBMI 170 68 = 47 / 2 :=
  ⟨by norm_num, (c8_calculateBMI_contract 170 68 (by norm_num)).2.2⟩

end HealthSync
